import Mathlib

/-!
# Verification of the video-editor export compiler (server/server.js)

Shallow embedding of the server's export filter-graph builder, the
process-video audio-tempo selection, and the job registry / progress
handlers.  Numeric values are modelled as rationals; filter-graph
entries are modelled structurally (one constructor per filter kind,
carrying exactly the numeric parameters the source interpolates into
the filter string).
-/

namespace VideoEditor

/-! ## Data model (types.ts / timeline JSON consumed by server.js) -/

/-- A transition attached to a clip boundary: `{ type, duration }`. -/
structure Transition where
  ttype : String
  duration : ℚ
deriving Repr, DecidableEq

/-- A reframe keyframe `{ time, x, y, scale }` (x, y normalized 0..1). -/
structure Keyframe where
  time : ℚ
  x : ℚ
  y : ℚ
  scale : ℚ
deriving Repr, DecidableEq

/-- Color grading parameters (brightness/contrast/saturation 1 = neutral,
exposure 0 = neutral, sharpness 0 = none). -/
structure ColorGrading where
  brightness : ℚ
  contrast : ℚ
  saturation : ℚ
  exposure : ℚ
  sharpness : ℚ
deriving Repr, DecidableEq

/-- A clip as the export endpoint reads it from the timeline JSON. -/
structure Clip where
  mediaFileId : String := ""
  sourceStart : ℚ
  sourceEnd : ℚ
  timelineStart : ℚ := 0
  transitionStart : Option Transition := none
  transitionEnd : Option Transition := none
  reframeKeyframes : List Keyframe := []
  colorGrading : Option ColorGrading := none
  volume : Option ℚ := none
deriving Repr, DecidableEq

/-- A track: ordered clips plus a track volume (`track.volume ?? 1`). -/
structure Track where
  clips : List Clip
  volume : Option ℚ := none
  isMuted : Bool := false
deriving Repr, DecidableEq

/-- The chosen template; only `layout` matters to the export endpoint. -/
structure Template where
  layout : String
deriving Repr, DecidableEq

/-- The timeline payload of POST /export. -/
structure Timeline where
  videoTracks : List Track
  audioTracks : List Track := []
  duration : ℚ := 0
  template : Template
deriving Repr, DecidableEq

/-- Effective (trimmed) duration of a clip: `sourceEnd - sourceStart`. -/
def clipDuration (c : Clip) : ℚ := c.sourceEnd - c.sourceStart

/-! ## Job registry (the in-memory `jobs` map entries) -/

inductive JobStatus
  | processing
  | done
  | error
deriving Repr, DecidableEq

/-- One entry of the `jobs` map.  Process-video jobs carry no `type`
field; export jobs are created with `type: 'export'` (modelled as
`jobType`). -/
structure Job where
  status : JobStatus
  progress : ℚ
  outputPath : String := ""
  inputPath : String := ""
  filename : String := ""
  errMsg : Option String := none
  jobType : Option String := none
deriving Repr, DecidableEq

/-- The job record created by POST /process-video (no `type` field). -/
def pvInitJob (outputPath inputPath filename : String) : Job :=
  { status := JobStatus.processing, progress := 0,
    outputPath := outputPath, inputPath := inputPath,
    filename := filename, errMsg := none, jobType := none }

/-- The job record created by POST /export (`type: 'export'`). -/
def exportInitJob (outputPath filename : String) : Job :=
  { status := JobStatus.processing, progress := 0,
    outputPath := outputPath, inputPath := "",
    filename := filename, errMsg := none, jobType := some "export" }

/-- The process-video `progress` handler: only while the job is not in
a terminal state, compute `percent = seconds / expectedDuration * 100`
from the parsed timemark and write `Math.max(0, Math.min(99, percent))`. -/
def pvProgressUpdate (job : Job) (seconds expectedDuration : ℚ) : Job :=
  if job.status ≠ JobStatus.done ∧ job.status ≠ JobStatus.error then
    let percent := seconds / expectedDuration * 100
    { job with progress := max 0 (min 99 percent) }
  else job

/-- The process-video `end` handler: status `done`, progress 100. -/
def pvEndUpdate (job : Job) : Job :=
  { job with status := JobStatus.done, progress := 100 }

/-- The process-video `error` handler: status `error`, message kept. -/
def pvErrorUpdate (job : Job) (msg : String) : Job :=
  { job with status := JobStatus.error, errMsg := some msg }

/-- JS `progress.percent || 50`: a missing or zero percent yields 50. -/
def percentOr50 (percent : Option ℚ) : ℚ :=
  match percent with
  | none => 50
  | some p => if p = 0 then 50 else p

/-- The export `progress` handler: unconditionally writes
`progress.percent || 50` (no clamp, no terminal-state guard on the
written value). -/
def exportProgressUpdate (job : Job) (percent : Option ℚ) : Job :=
  { job with progress := percentOr50 percent }

/-- The export completion code: status `done`, progress 100. -/
def exportEndUpdate (job : Job) : Job :=
  { job with status := JobStatus.done, progress := 100 }

/-- The export catch block: status `error`, message kept. -/
def exportErrorUpdate (job : Job) (msg : String) : Job :=
  { job with status := JobStatus.error, errMsg := some msg }

/-! ## Encoder event traces

A single encoder run emits a sequence of `progress` events and then
settles exactly once: either the `end` event or the `error` event.
We model a run as a list of progress payloads followed by an optional
terminal event, and fold the handlers over it. -/

/-- Terminal outcome of an encoder run. -/
inductive TermEvent
  | finished
  | failed (msg : String)
deriving Repr, DecidableEq

/-- Apply one process-video encoder event to the job record. -/
def pvApplyProgress (job : Job) (p : ℚ × ℚ) : Job :=
  pvProgressUpdate job p.1 p.2

/-- Apply the process-video terminal event to the job record. -/
def pvApplyTerm (job : Job) (t : TermEvent) : Job :=
  match t with
  | TermEvent.finished => pvEndUpdate job
  | TermEvent.failed m => pvErrorUpdate job m

/-- Apply one export encoder progress event to the job record. -/
def exApplyProgress (job : Job) (p : Option ℚ) : Job :=
  exportProgressUpdate job p

/-- Apply the export terminal event to the job record. -/
def exApplyTerm (job : Job) (t : TermEvent) : Job :=
  match t with
  | TermEvent.finished => exportEndUpdate job
  | TermEvent.failed m => exportErrorUpdate job m

/-- The successive job states produced by folding `f` over a list of
events, starting from (and including) `j`. -/
def runStates {α : Type} (f : Job → α → Job) (j : Job) : List α → List Job
  | [] => [j]
  | e :: es => j :: runStates f (f j e) es

/-- Job states over one full encoder run: the progress events in
order, then (when the run has settled) the terminal handler applied to
the job record as the run left it. -/
def genJobStates {α : Type} (f : Job → α → Job) (g : Job → TermEvent → Job)
    (j : Job) (ps : List α) (term : Option TermEvent) : List Job :=
  match term with
  | none => runStates f j ps
  | some t => runStates f j ps ++ [g (ps.foldl f j) t]

/-- Job states over one full process-video encoder run. -/
def pvJobStates (j : Job) (ps : List (ℚ × ℚ)) (term : Option TermEvent) :
    List Job :=
  genJobStates pvApplyProgress pvApplyTerm j ps term

/-- Job states over one full export encoder run. -/
def exJobStates (j : Job) (ps : List (Option ℚ)) (term : Option TermEvent) :
    List Job :=
  genJobStates exApplyProgress exApplyTerm j ps term

/-- Any process-video handler invocation, for tracking what a job
record can ever become (used by the export-progress claims). -/
inductive PVEvent
  | prog (seconds expectedDuration : ℚ)
  | term (t : TermEvent)
deriving Repr, DecidableEq

/-- Apply one process-video handler invocation. -/
def pvApply (j : Job) (e : PVEvent) : Job :=
  match e with
  | PVEvent.prog s d => pvProgressUpdate j s d
  | PVEvent.term t => pvApplyTerm j t

/-- A job in a terminal state. -/
def isTerminal (j : Job) : Prop :=
  j.status = JobStatus.done ∨ j.status = JobStatus.error

instance (j : Job) : Decidable (isTerminal j) := by
  unfold isTerminal; infer_instance

/-! ## Audio tempo chain of POST /process-video -/

/-- The `atempo` stage factors chosen by the process-video endpoint for
a given speed factor (the branch ladder at the top of the handler). -/
def atempoStages (speedNum : ℚ) : List ℚ :=
  if speedNum = 1/2 then [1/2]
  else if speedNum = 1/4 then [1/2, 1/2]
  else if speedNum = 2 then [2]
  else if speedNum < 1/2 then [1/2, 1/2]
  else if speedNum > 2 then [2]
  else [speedNum]

/-! ## Structured filter-graph model for POST /export

Every string pushed onto `filterComplex` in the source is modelled by
one constructor carrying exactly the numeric parameters and stream
labels the source interpolates into the string. -/

/-- Arithmetic expressions embedded in a crop offset (evaluated by the
encoder per frame against the input width `iw` / height `ih`). -/
inductive CropExpr
  | const (q : ℚ)
  | iw
  | ih
  | add (a b : CropExpr)
  | sub (a b : CropExpr)
  | mul (a b : CropExpr)
  | div (a b : CropExpr)
  | maxE (a b : CropExpr)
  | minE (a b : CropExpr)
deriving Repr, DecidableEq

/-- Evaluate a crop-offset expression at concrete frame dimensions. -/
def CropExpr.eval (w h : ℚ) : CropExpr → ℚ
  | CropExpr.const q => q
  | CropExpr.iw => w
  | CropExpr.ih => h
  | CropExpr.add a b => CropExpr.eval w h a + CropExpr.eval w h b
  | CropExpr.sub a b => CropExpr.eval w h a - CropExpr.eval w h b
  | CropExpr.mul a b => CropExpr.eval w h a * CropExpr.eval w h b
  | CropExpr.div a b => CropExpr.eval w h a / CropExpr.eval w h b
  | CropExpr.maxE a b => max (CropExpr.eval w h a) (CropExpr.eval w h b)
  | CropExpr.minE a b => min (CropExpr.eval w h a) (CropExpr.eval w h b)

/-- The clamped crop x-offset emitted for a reframed clip:
`max(0, min(iw-1080, (avgX*iw)-(1080/2)))`. -/
def panCropXExpr (avgX : ℚ) : CropExpr :=
  CropExpr.maxE (CropExpr.const 0)
    (CropExpr.minE (CropExpr.sub CropExpr.iw (CropExpr.const 1080))
      (CropExpr.sub (CropExpr.mul (CropExpr.const avgX) CropExpr.iw)
        (CropExpr.div (CropExpr.const 1080) (CropExpr.const 2))))

/-- The centered crop x-offset `(iw-1080)/2` of the no-reframe branch. -/
def centerCropXExpr : CropExpr :=
  CropExpr.div (CropExpr.sub CropExpr.iw (CropExpr.const 1080)) (CropExpr.const 2)

/-- The vertically centered crop y-offset `(ih-1920)/2`. -/
def centerCropYExpr : CropExpr :=
  CropExpr.div (CropExpr.sub CropExpr.ih (CropExpr.const 1920)) (CropExpr.const 2)

/-- One stage of a per-clip video filter chain. -/
inductive VFStage
  | trim (start duration : ℚ)
  | setptsStart
  | scaleCover
  | crop (w h : ℚ) (x y : CropExpr)
  | setsar1
  | fps30
  | formatYuv420p
  | eqGrade (params : List (String × ℚ))
  | unsharp (amount : ℚ)
deriving Repr, DecidableEq

/-- JS `Number.prototype.toFixed(3)` on the values the grader emits,
modelled as rounding to 3 decimal places. -/
def toFixed3 (q : ℚ) : ℚ := (round (q * 1000) : ℤ) / 1000

/-- JS `Number.prototype.toFixed(2)`, modelled as rounding to 2 places. -/
def toFixed2 (q : ℚ) : ℚ := (round (q * 100) : ℤ) / 100

/-- Average keyframe x position: sum of `kf.x` divided by the count. -/
def avgKeyframeX (kfs : List Keyframe) : ℚ :=
  (kfs.map Keyframe.x).sum / (kfs.length : ℚ)

/-- The scale+crop stages: reframed clips scale to cover and crop a
fixed 1080x1920 window panned to the average keyframe x; clips without
keyframes scale to cover and center-crop. -/
def frameStages (c : Clip) : List VFStage :=
  if c.reframeKeyframes.length > 0 then
    [VFStage.scaleCover,
     VFStage.crop 1080 1920 (panCropXExpr (avgKeyframeX c.reframeKeyframes)) centerCropYExpr]
  else
    [VFStage.scaleCover, VFStage.crop 1080 1920 centerCropXExpr centerCropYExpr]

/-- The color-grading stages (empty when no grading is attached or all
parameters are within 0.001 of neutral). -/
def gradeStages (c : Clip) : List VFStage :=
  match c.colorGrading with
  | none => []
  | some g =>
    let effectiveBrightness := (g.brightness - 1) + g.exposure * (1/2)
    let eqParams :=
      (if |effectiveBrightness| > 1/1000 then
        [("brightness", toFixed3 effectiveBrightness)] else []) ++
      (if |g.contrast - 1| > 1/1000 then [("contrast", toFixed3 g.contrast)] else []) ++
      (if |g.saturation - 1| > 1/1000 then [("saturation", toFixed3 g.saturation)] else [])
    (if eqParams.length > 0 then [VFStage.eqGrade eqParams] else []) ++
      (if g.sharpness > 0 then [VFStage.unsharp (toFixed2 (g.sharpness * (3/2)))] else [])

/-- The full per-clip video filter chain built in step 1 of the export
handler: trim, reset timestamps, scale/crop, normalize, grade. -/
def clipVideoStages (c : Clip) : List VFStage :=
  [VFStage.trim c.sourceStart (clipDuration c), VFStage.setptsStart] ++
    frameStages c ++
    [VFStage.setsar1, VFStage.fps30, VFStage.formatYuv420p] ++
    gradeStages c

/-- One entry of the `filterComplex` array. -/
inductive FilterEntry
  | clipVideo (i : Nat) (stages : List VFStage)
  | clipAudioSilent (i : Nat) (duration vol : ℚ)
  | clipAudioSource (i : Nat) (start duration vol : ℚ)
  | fadeIn (inLabel : String) (duration : ℚ) (color outLabel : String)
  | afadeIn (inLabel : String) (duration : ℚ) (outLabel : String)
  | concatV (a b outLabel : String)
  | concatA (a b outLabel : String)
  | xfade (kind : String) (duration offset : ℚ) (a b outLabel : String)
  | acrossfade (duration : ℚ) (a b outLabel : String)
  | fadeOut (inLabel : String) (start duration : ℚ) (color outLabel : String)
  | afadeOut (inLabel : String) (start duration : ℚ) (outLabel : String)
  | nullPass (a outLabel : String)
  | aresampleFinal (a outLabel : String)
  | musicTrim (idx : Nat) (start duration : ℚ)
  | musicDelay (idx : Nat) (delayMs : ℚ)
  | musicVolume (idx : Nat) (vol : ℚ)
  | musicResample (idx : Nat)
  | amix (inputLabels : List String) (nInputs : Nat) (durationMode : String)
      (dropoutTransition : ℚ) (outLabel : String)
  | anullPass (a outLabel : String)
deriving Repr, DecidableEq

/-- Stream label for the i-th clip video output. -/
def vLabel (i : Nat) : String := "v" ++ toString i

/-- Stream label for the i-th clip audio output. -/
def aLabel (i : Nat) : String := "a" ++ toString i

/-- Stream label for the merged video after boundary i. -/
def vmLabel (i : Nat) : String := "vm" ++ toString i

/-- Stream label for the merged audio after boundary i. -/
def amLabel (i : Nat) : String := "am" ++ toString i

/-- The image-extension test `/\.(jpg|jpeg|png|webp|bmp|gif)$/i`. -/
def isImagePath (p : String) : Bool :=
  [".jpg", ".jpeg", ".png", ".webp", ".bmp", ".gif"].any
    (fun e => (p.toLower).endsWith e)

/-- Resolved per-clip input bookkeeping (`inputData` in the source). -/
structure ResolvedInput where
  path : String
  isImage : Bool
  duration : ℚ
deriving Repr, DecidableEq

/-- The audio entry for one clip: silence for image sources, a trimmed
and volume-scaled source stream otherwise.  The volume is
`(track.volume ?? 1) * (clip.volume ?? 1)`. -/
def clipAudioEntry (i : Nat) (trackVolume : Option ℚ) (c : Clip)
    (isImage : Bool) : FilterEntry :=
  let finalVolume := trackVolume.getD 1 * c.volume.getD 1
  if isImage then FilterEntry.clipAudioSilent i (clipDuration c) finalVolume
  else FilterEntry.clipAudioSource i c.sourceStart (clipDuration c) finalVolume

/-- Step 1 of the export handler: resolve every clip's input file and
emit its video and audio filter chains, failing fatally on the first
clip whose media file cannot be resolved. -/
def buildStep1 (trackVolume : Option ℚ) (resolve : Clip → Option String) :
    Nat → List Clip → Except String (List ResolvedInput × List FilterEntry)
  | _, [] => Except.ok ([], [])
  | i, c :: rest =>
    match resolve c with
    | none => Except.error ("Video file not found for clip " ++ c.mediaFileId)
    | some p =>
      let isImage := isImagePath p
      match buildStep1 trackVolume resolve (i + 1) rest with
      | Except.error e => Except.error e
      | Except.ok (ins, fs) =>
        Except.ok
          ({ path := p, isImage := isImage, duration := clipDuration c } :: ins,
            FilterEntry.clipVideo i (clipVideoStages c) ::
              clipAudioEntry i trackVolume c isImage :: fs)

/-! ## Transition chain builder (step 2 of the export handler) -/

/-- The running chain state: active video/audio stream labels, the
running chain-end timestamp, and the filters emitted so far. -/
structure ChainState where
  lastV : String
  lastA : String
  chainEnd : ℚ
  filters : List FilterEntry
deriving Repr, DecidableEq

/-- Resolve the transition at the boundary between `c` and `nextClip`:
prefer `c.transitionEnd` when its duration is positive, else
`nextClip.transitionStart` when its duration is positive, else
`('none', 0)`. -/
def resolveTransition (c nextClip : Clip) : String × ℚ :=
  match c.transitionEnd with
  | some t =>
    if 0 < t.duration then (t.ttype, t.duration)
    else
      match nextClip.transitionStart with
      | some u => if 0 < u.duration then (u.ttype, u.duration) else ("none", 0)
      | none => ("none", 0)
  | none =>
    match nextClip.transitionStart with
    | some u => if 0 < u.duration then (u.ttype, u.duration) else ("none", 0)
    | none => ("none", 0)

/-- The `xfadeMap` lookup with its `|| 'fade'` default. -/
def xfadeMap (t : String) : String :=
  if t = "cross-dissolve" then "fade"
  else if t = "additive-dissolve" then "fade"
  else if t = "blur-dissolve" then "pixelize"
  else if t = "non-additive-dissolve" then "fade"
  else if t = "smooth-cut" then "fade"
  else if t = "dip-to-black" then "fadeblack"
  else if t = "dip-to-white" then "fadewhite"
  else if t = "fade-in" then "fade"
  else if t = "fade-out" then "fade"
  else "fade"

/-- The middle-boundary loop body for boundary `i` (between clip `i`
and clip `i+1`), applied to the running chain state.  Mirrors the
source exactly, including the fallback branch leaving the active
stream labels unchanged. -/
def middleStep (i : Nat) (c nextClip : Clip) (s : ChainState) : ChainState :=
  let r := resolveTransition c nextClip
  let transitionType := r.1
  let transitionDuration := r.2
  let ffmpegTransition := xfadeMap transitionType
  if 0 < transitionDuration ∧ transitionType ≠ "none" then
    let offset := s.chainEnd - transitionDuration
    if offset < 0 then
      { s with
        filters := s.filters ++
          [FilterEntry.concatV s.lastV (vLabel (i + 1)) (vmLabel (i + 1)),
           FilterEntry.concatA s.lastA (aLabel (i + 1)) (amLabel (i + 1))],
        chainEnd := s.chainEnd + clipDuration nextClip }
    else
      { lastV := vmLabel (i + 1), lastA := amLabel (i + 1),
        chainEnd := offset + clipDuration nextClip,
        filters := s.filters ++
          [FilterEntry.xfade ffmpegTransition transitionDuration offset
            s.lastV (vLabel (i + 1)) (vmLabel (i + 1)),
           FilterEntry.acrossfade transitionDuration
            s.lastA (aLabel (i + 1)) (amLabel (i + 1))] }
  else
    { lastV := vmLabel (i + 1), lastA := amLabel (i + 1),
      chainEnd := s.chainEnd + clipDuration nextClip,
      filters := s.filters ++
        [FilterEntry.concatV s.lastV (vLabel (i + 1)) (vmLabel (i + 1)),
         FilterEntry.concatA s.lastA (aLabel (i + 1)) (amLabel (i + 1))] }

/-- Iterate `middleStep` over every adjacent clip pair, numbering
boundaries from `i`. -/
def runMiddle (i : Nat) : List Clip → ChainState → ChainState
  | c :: c2 :: rest, s => runMiddle (i + 1) (c2 :: rest) (middleStep i c c2 s)
  | _, s => s

/-- The start-boundary fade-in on clip 0, when it declares a
`transitionStart` with positive duration. -/
def applyStartTransition (c0 : Clip) (s : ChainState) : ChainState :=
  match c0.transitionStart with
  | some t =>
    if 0 < t.duration then
      let fadeColor := if t.ttype = "dip-to-white" then "white" else "black"
      { s with
        filters := s.filters ++
          [FilterEntry.fadeIn s.lastV t.duration fadeColor "v0_faded",
           FilterEntry.afadeIn s.lastA t.duration "a0_faded"],
        lastV := "v0_faded", lastA := "a0_faded" }
    else s
  | none => s

/-- The end-boundary fade-out on the last clip, applied only when
`fadeOutStart = chainEnd - duration` is positive. -/
def applyEndTransition (lastClip : Clip) (s : ChainState) : ChainState :=
  match lastClip.transitionEnd with
  | some t =>
    if 0 < t.duration then
      let fadeOutStart := s.chainEnd - t.duration
      let fadeColor := if t.ttype = "dip-to-white" then "white" else "black"
      if 0 < fadeOutStart then
        { s with
          filters := s.filters ++
            [FilterEntry.fadeOut s.lastV fadeOutStart t.duration fadeColor "v_final_faded",
             FilterEntry.afadeOut s.lastA fadeOutStart t.duration "a_final_faded"],
          lastV := "v_final_faded", lastA := "a_final_faded" }
      else s
    else s
  | none => s

/-! ## Audio mix stage (step 3 of the export handler) -/

/-- Per-clip music chain for input index `idx`: trim, delay to
`timelineStart * 1000` ms, volume `(track.volume ?? 1) * (clip.volume ?? 1)`,
resample. -/
def musicEntries (idx : Nat) (trackVolume : Option ℚ) (c : Clip) :
    List FilterEntry :=
  [FilterEntry.musicTrim idx c.sourceStart (clipDuration c),
   FilterEntry.musicDelay idx (c.timelineStart * 1000),
   FilterEntry.musicVolume idx (trackVolume.getD 1 * c.volume.getD 1),
   FilterEntry.musicResample idx]

/-- Music label for input index `idx` (`a{idx}_out`). -/
def musicLabel (idx : Nat) : String := "a" ++ toString idx ++ "_out"

/-- Fold the secondary audio clips (tracks in order, clips in order)
starting at input index `idx`; clips whose media file does not resolve
are skipped.  Returns the resolved input paths, the emitted filter
entries, and the output labels. -/
def buildMusic (resolveMusic : Clip → Option String) :
    Nat → List (Option ℚ × Clip) → List String × List FilterEntry × List String
  | _, [] => ([], [], [])
  | idx, (tv, c) :: rest =>
    match resolveMusic c with
    | none => buildMusic resolveMusic idx rest
    | some p =>
      let r := buildMusic resolveMusic (idx + 1) rest
      (p :: r.1, musicEntries idx tv c ++ r.2.1, musicLabel idx :: r.2.2)

/-- The flattened (trackVolume, clip) pairs of all audio tracks, in
iteration order. -/
def audioTrackClips (audioTracks : List Track) : List (Option ℚ × Clip) :=
  audioTracks.flatMap (fun t => t.clips.map (fun c => (t.volume, c)))

/-- The final mix entry: `amix=inputs=N:duration=first:dropout_transition=2`
when more than one input label exists, else the `anull` passthrough of
the master stream. -/
def mixEntry (audioInputs : List String) : FilterEntry :=
  if audioInputs.length > 1 then
    FilterEntry.amix audioInputs audioInputs.length "first" 2 "a_mixed"
  else FilterEntry.anullPass "a_final" "a_mixed"

/-! ## The full export graph builder -/

/-- Everything the export handler computes that does not depend on the
wall clock: resolved inputs, music paths, audio input labels, and the
filter graph. -/
structure ExportCore where
  outputFilename : String
  inputData : List ResolvedInput
  musicPaths : List String
  audioInputLabels : List String
  filterComplex : List FilterEntry
deriving Repr, DecidableEq

/-- The result of the export handler, including the clock-derived id. -/
structure ExportOk where
  exportId : String
  outputFilename : String
  inputData : List ResolvedInput
  musicPaths : List String
  audioInputLabels : List String
  filterComplex : List FilterEntry
deriving Repr, DecidableEq

/-- The chain state after start transition, middle-boundary fold, and
end transition (step 2 of the export handler), starting from the
step-1 filters and `chainEnd` = duration of clip 0. -/
def chainState3 (c0 : Clip) (restClips : List Clip) (fc1 : List FilterEntry) :
    ChainState :=
  applyEndTransition ((c0 :: restClips).getLast (by simp))
    (runMiddle 0 (c0 :: restClips)
      (applyStartTransition c0
        { lastV := "v0", lastA := "a0", chainEnd := clipDuration c0, filters := fc1 }))

/-- Assemble the successful export result: chained filters, final
null/aresample taps, music chains, and the mix entry. -/
def assembleCore (outputFilename : String) (c0 : Clip) (restClips : List Clip)
    (inputData : List ResolvedInput) (fc1 : List FilterEntry)
    (audioTracks : List Track) (resolveMusic : Clip → Option String) : ExportCore :=
  let s3 := chainState3 c0 restClips fc1
  let m := buildMusic resolveMusic (c0 :: restClips).length
    (audioTrackClips audioTracks)
  let audioInputs := "a_final" :: m.2.2
  { outputFilename := outputFilename,
    inputData := inputData,
    musicPaths := m.1,
    audioInputLabels := audioInputs,
    filterComplex :=
      (s3.filters ++
        [FilterEntry.nullPass s3.lastV "v_final",
         FilterEntry.aresampleFinal s3.lastA "a_final"]) ++
        m.2.1 ++ [mixEntry audioInputs] }

/-- The export graph construction: layout check, empty check, per-clip
chains, transition chain fold, final null/aresample taps, music mix. -/
def buildExportCore (t : Timeline) (userFilename format : Option String)
    (resolve resolveMusic : Clip → Option String) :
    Except String ExportCore :=
  match t.videoTracks with
  | [track] =>
    if t.template.layout = "solo" then
      match track.clips with
      | [] => Except.error "No clips to export"
      | c0 :: restClips =>
        match buildStep1 track.volume resolve 0 (c0 :: restClips) with
        | Except.error e => Except.error e
        | Except.ok (inputData, fc1) =>
          Except.ok (assembleCore
            (userFilename.getD "export" ++ "." ++ format.getD "mp4")
            c0 restClips inputData fc1 t.audioTracks resolveMusic)
    else Except.error "Phase 1 only supports solo layout with one video track"
  | _ => Except.error "Phase 1 only supports solo layout with one video track"

/-- The export handler entry point; `now` models `Date.now()`, which
only feeds the generated export id. -/
def buildExport (t : Timeline) (userFilename format : Option String)
    (resolve resolveMusic : Clip → Option String) (now : Nat) :
    Except String ExportOk :=
  (buildExportCore t userFilename format resolve resolveMusic).map
    (fun c =>
      { exportId := toString now,
        outputFilename := c.outputFilename,
        inputData := c.inputData,
        musicPaths := c.musicPaths,
        audioInputLabels := c.audioInputLabels,
        filterComplex := c.filterComplex })

/-! ## Progress broadcaster (GET /export-progress/:exportId) -/

/-- One server-sent message. -/
inductive SSEMessage
  | dataMsg (status : JobStatus) (progress : ℚ)
  | errorMsg (msg : String)
deriving Repr, DecidableEq

/-- One tick of the export progress stream: the messages written and
whether the stream is closed.  A missing job, or a job whose `type` is
not `'export'`, yields a single error event and an immediate close. -/
def exportProgressTick (job : Option Job) : List SSEMessage × Bool :=
  match job with
  | none => ([SSEMessage.errorMsg "Export not found"], true)
  | some j =>
    if j.jobType ≠ some "export" then
      ([SSEMessage.errorMsg "Export not found"], true)
    else
      ([SSEMessage.dataMsg j.status j.progress],
        decide (j.status = JobStatus.done ∨ j.status = JobStatus.error))

/-! ## Sample inputs used by witnesses and counterexamples -/

/-- A 5-second clip on the video track. -/
def sampleClipA : Clip :=
  { mediaFileId := "m1", sourceStart := 0, sourceEnd := 5,
    transitionEnd := some { ttype := "cross-dissolve", duration := 2 } }

/-- A second 5-second clip on the video track. -/
def sampleClipB : Clip :=
  { mediaFileId := "m2", sourceStart := 0, sourceEnd := 5 }

/-- A 3-second music clip starting at second 1 of the timeline. -/
def sampleMusicClip : Clip :=
  { mediaFileId := "mus", sourceStart := 0, sourceEnd := 3, timelineStart := 1 }

/-- A solo timeline: one video track with one clip, one music track. -/
def sampleTimeline : Timeline :=
  { videoTracks := [{ clips := [{ mediaFileId := "m1", sourceStart := 0, sourceEnd := 5 }] }],
    audioTracks := [{ clips := [sampleMusicClip] }],
    template := { layout := "solo" } }

/-- Resolver for the sample video clips. -/
def sampleResolve : Clip → Option String :=
  fun c => if c.mediaFileId = "m1" then some "uploads/m1.mp4"
    else if c.mediaFileId = "m2" then some "uploads/m2.mp4" else none

/-- Resolver for the sample music clip. -/
def sampleResolveMusic : Clip → Option String :=
  fun c => if c.mediaFileId = "mus" then some "uploads/mus.mp3" else none

/-! ## Theorems -/

/-- C6, counterexample: POST /process-video accepts speed factor 4, yet
the generated atempo chain is the single stage `atempo=2.0`, whose
product 2 is not the requested factor 4. -/
theorem c6_atempo_counterexample :
    atempoStages 4 = [2] ∧ (atempoStages 4).prod = 2 ∧ ((2 : ℚ) ≠ 4) := by
  refine ⟨by norm_num [atempoStages], ?_, by norm_num⟩
  norm_num [atempoStages]

/-- C6, amended: every atempo stage factor lies in the supported
per-stage range [0.5, 2.0]; the product of the chain equals the
requested speed factor exactly when that factor is 0.25 or lies in
[0.5, 2]; for smaller factors the chain saturates at product 0.25 and
for larger ones at product 2. -/
theorem c6_atempo_stage_range (s : ℚ) :
    (∀ f ∈ atempoStages s, (1 : ℚ)/2 ≤ f ∧ f ≤ 2) ∧
      (atempoStages s).prod =
        (if s = 1/4 ∨ ((1 : ℚ)/2 ≤ s ∧ s ≤ 2) then s
         else if s < 1/2 then 1/4 else 2) := by
  constructor
  · intro f hf
    unfold atempoStages at hf
    split_ifs at hf with h1 h2 h3 h4 h5 <;>
      simp only [List.mem_cons, List.mem_singleton, List.not_mem_nil, or_false] at hf
    · subst hf; norm_num
    · rcases hf with hf | hf <;> subst hf <;> norm_num
    · subst hf; norm_num
    · rcases hf with hf | hf <;> subst hf <;> norm_num
    · subst hf; norm_num
    · subst hf
      push_neg at h4 h5
      constructor <;> linarith
  · rcases eq_or_ne s (1/2) with h1 | h1
    · subst h1; norm_num [atempoStages]
    rcases eq_or_ne s (1/4) with h2 | h2
    · subst h2; norm_num [atempoStages]
    rcases eq_or_ne s 2 with h3 | h3
    · subst h3; norm_num [atempoStages]
    rcases lt_or_le s (1/2) with h4 | h4
    · rw [atempoStages, if_neg h1, if_neg h2, if_neg h3, if_pos h4,
        if_neg ?_, if_pos h4]
      · norm_num
      · rintro (hc | ⟨hc, _⟩)
        · exact h2 hc
        · linarith
    rcases lt_or_le (2 : ℚ) s with h5 | h5
    · rw [atempoStages, if_neg h1, if_neg h2, if_neg h3,
        if_neg (not_lt.mpr h4), if_pos h5, if_neg ?_, if_neg (not_lt.mpr h4)]
      · norm_num
      · rintro (hc | ⟨_, hc⟩)
        · rw [hc] at h5; linarith
        · linarith
    · rw [atempoStages, if_neg h1, if_neg h2, if_neg h3,
        if_neg (not_lt.mpr h4), if_neg (not_lt.mpr h5),
        if_pos (Or.inr ⟨h4, h5⟩)]
      norm_num

/-- C6, witness for the amended theorem at speed 0.75. -/
theorem c6_atempo_witness :
    ((1 : ℚ)/2 ≤ 3/4 ∧ ((3 : ℚ)/4) ≤ 2) ∧ (atempoStages (3/4)).prod = 3/4 := by
  constructor
  · exact (c6_atempo_stage_range (3/4)).1 (3/4) (by norm_num [atempoStages])
  · have h := (c6_atempo_stage_range (3/4)).2
    norm_num at h
    exact h

/-- C3, counterexample: the export progress handler writes the raw
encoder percent with no clamp: an export job still in status
'processing' receives a progress event with percent 100 and its
progress becomes 100 while the status stays 'processing'. -/
theorem c3_export_unclamped_counterexample :
    (exportProgressUpdate (exportInitJob "out.mp4" "export.mp4") (some 100)).progress = 100 ∧
      (exportProgressUpdate (exportInitJob "out.mp4" "export.mp4") (some 100)).status =
        JobStatus.processing ∧
      ¬ ((100 : ℚ) ≤ 99) := by
  refine ⟨?_, rfl, by norm_num⟩
  norm_num [exportProgressUpdate, percentOr50, exportInitJob]

/-- C3, amended: for process-video jobs every progress value written
while the status is 'processing' lies in [0, 99] and leaves the status
unchanged, and 100 is written only by the completion handler together
with the transition to 'done'; export jobs instead write the raw
encoder percent (50 when the event reports no percent or percent 0),
with no clamp. -/
theorem c3_progress_clamped (job : Job) (seconds expectedDuration : ℚ)
    (h : job.status = JobStatus.processing) :
    0 ≤ (pvProgressUpdate job seconds expectedDuration).progress ∧
      (pvProgressUpdate job seconds expectedDuration).progress ≤ 99 ∧
      (pvProgressUpdate job seconds expectedDuration).status = JobStatus.processing ∧
      (pvEndUpdate job).progress = 100 ∧
      (pvEndUpdate job).status = JobStatus.done ∧
      ∀ p : Option ℚ, (exportProgressUpdate job p).progress = percentOr50 p := by
  have hcond : job.status ≠ JobStatus.done ∧ job.status ≠ JobStatus.error := by
    rw [h]; exact ⟨by simp, by simp⟩
  refine ⟨?_, ?_, ?_, rfl, rfl, fun p => rfl⟩
  · rw [pvProgressUpdate, if_pos hcond]
    exact le_max_left 0 _
  · rw [pvProgressUpdate, if_pos hcond]
    exact max_le (by norm_num) (min_le_left 99 _)
  · rw [pvProgressUpdate, if_pos hcond, h]

/-- C3, witness: a fresh process-video job with a progress mark of 5
seconds against an expected 10. -/
theorem c3_progress_clamped_witness :
    (pvInitJob "o" "i" "f").status = JobStatus.processing ∧
      0 ≤ (pvProgressUpdate (pvInitJob "o" "i" "f") 5 10).progress ∧
      (pvProgressUpdate (pvInitJob "o" "i" "f") 5 10).progress ≤ 99 := by
  have h := c3_progress_clamped (pvInitJob "o" "i" "f") 5 10 rfl
  exact ⟨rfl, h.1, h.2.1⟩

/-- Any process-video handler invocation leaves `jobType` untouched. -/
theorem pvApply_jobType (j : Job) (e : PVEvent) : (pvApply j e).jobType = j.jobType := by
  cases e with
  | prog s d =>
    simp only [pvApply, pvProgressUpdate]
    split <;> rfl
  | term t => cases t <;> rfl

/-- Folding any handler sequence preserves `jobType`. -/
theorem foldl_pvApply_jobType (es : List PVEvent) (j : Job) :
    (es.foldl pvApply j).jobType = j.jobType := by
  induction es generalizing j with
  | nil => rfl
  | cons e es ih => rw [List.foldl_cons, ih, pvApply_jobType]

/-- C10: a job created by POST /process-video, in any state any
sequence of its handlers can put it in, still has no `type: 'export'`
field, so GET /export-progress on its id emits a single
'Export not found' error event and closes the stream immediately. -/
theorem c10_export_progress_rejects_pv_jobs (op ip fn : String) (es : List PVEvent) :
    exportProgressTick (some (es.foldl pvApply (pvInitJob op ip fn))) =
      ([SSEMessage.errorMsg "Export not found"], true) := by
  have htype : (es.foldl pvApply (pvInitJob op ip fn)).jobType = none := by
    rw [foldl_pvApply_jobType]; rfl
  rw [exportProgressTick, if_pos]
  rw [htype]
  simp

/-! ## Terminal-state stability (C4) -/

/-- Once a job state is terminal, every later state must equal it
(status, progress, and all other fields). -/
def terminalFrozen (a b : Job) : Prop := isTerminal a → b = a

/-- One allowed adjacent status move: unchanged, or the single
transition from 'processing' to a terminal status. -/
def statusStep (a b : Job) : Prop :=
  b.status = a.status ∨
    (a.status = JobStatus.processing ∧
      (b.status = JobStatus.done ∨ b.status = JobStatus.error))

/-- Unfolding one progress event off the front of a run. -/
theorem genJobStates_cons {α : Type} (f : Job → α → Job) (g : Job → TermEvent → Job)
    (j : Job) (p : α) (ps : List α) (term : Option TermEvent) :
    genJobStates f g j (p :: ps) term = j :: genJobStates f g (f j p) ps term := by
  cases term <;> rfl

/-- Over any encoder run whose progress handler never touches the
status and whose terminal handler sets a terminal status, starting
from a processing job: terminal states are never overwritten and the
status makes at most the single processing-to-terminal move. -/
theorem genJobStates_stable {α : Type} (f : Job → α → Job) (g : Job → TermEvent → Job)
    (hf : ∀ j e, (f j e).status = j.status)
    (hg : ∀ j t, (g j t).status = JobStatus.done ∨ (g j t).status = JobStatus.error)
    (j : Job) (hj : j.status = JobStatus.processing) (ps : List α)
    (term : Option TermEvent) :
    List.Pairwise terminalFrozen (genJobStates f g j ps term) ∧
      List.Chain' statusStep (genJobStates f g j ps term) := by
  induction ps generalizing j with
  | nil =>
    cases term with
    | none =>
      constructor
      · simp [genJobStates, runStates]
      · simp [genJobStates, runStates]
    | some t =>
      constructor
      · simp only [genJobStates, runStates, List.foldl_nil, List.singleton_append]
        refine List.pairwise_cons.mpr ⟨?_, by simp⟩
        intro b _ hterm
        exfalso
        rcases hterm with h | h <;> rw [hj] at h <;> simp at h
      · simp only [genJobStates, runStates, List.foldl_nil, List.singleton_append]
        refine List.chain'_cons.mpr ⟨?_, List.chain'_singleton _⟩
        exact Or.inr ⟨hj, hg j t⟩
  | cons p ps ih =>
    rw [genJobStates_cons]
    have hstat : (f j p).status = JobStatus.processing := by rw [hf, hj]
    have hih := ih (f j p) hstat
    have hhead : ∃ tl, genJobStates f g (f j p) ps term = (f j p) :: tl := by
      cases ps with
      | nil => cases term <;> exact ⟨_, rfl⟩
      | cons q qs => cases term <;> exact ⟨_, rfl⟩
    constructor
    · refine List.pairwise_cons.mpr ⟨?_, hih.1⟩
      intro b _ hterm
      exfalso
      rcases hterm with h | h <;> rw [hj] at h <;> simp at h
    · obtain ⟨tl, htl⟩ := hhead
      rw [htl]
      rw [htl] at hih
      refine List.chain'_cons.mpr ⟨?_, hih.2⟩
      exact Or.inl (by rw [hf])

/-- C4: for process-video and export jobs alike, over any single
encoder run (progress events in stream order, then at most one settle
into the end or error handler), the status makes at most one terminal
transition — processing to done or processing to error — and once a
state is terminal no later handler invocation of the run changes the
job record at all. -/
theorem c4_terminal_once (op ip fn eop efn : String)
    (ps : List (ℚ × ℚ)) (term : Option TermEvent)
    (qs : List (Option ℚ)) (termE : Option TermEvent) :
    (List.Pairwise terminalFrozen (pvJobStates (pvInitJob op ip fn) ps term) ∧
      List.Chain' statusStep (pvJobStates (pvInitJob op ip fn) ps term)) ∧
      (List.Pairwise terminalFrozen (exJobStates (exportInitJob eop efn) qs termE) ∧
        List.Chain' statusStep (exJobStates (exportInitJob eop efn) qs termE)) := by
  constructor
  · exact genJobStates_stable pvApplyProgress pvApplyTerm
      (fun j e => by
        simp only [pvApplyProgress, pvProgressUpdate]
        split <;> rfl)
      (fun j t => by cases t with
        | finished => exact Or.inl rfl
        | failed m => exact Or.inr rfl)
      (pvInitJob op ip fn) rfl ps term
  · exact genJobStates_stable exApplyProgress exApplyTerm
      (fun j e => rfl)
      (fun j t => by cases t with
        | finished => exact Or.inl rfl
        | failed m => exact Or.inr rfl)
      (exportInitJob eop efn) rfl qs termE

/-! ## Reframe crop construction (C7, C9) -/

/-- A clip carrying reframe keyframes whose scale values differ. -/
def sampleReframeClip : Clip :=
  { mediaFileId := "m1", sourceStart := 0, sourceEnd := 5,
    reframeKeyframes :=
      [{ time := 0, x := 3/10, y := 1/2, scale := 12/10 },
       { time := 1, x := 7/10, y := 1/2, scale := 2 }] }

/-- The same x positions with different times, y positions and scales. -/
def sampleKfs2 : List Keyframe :=
  [{ time := 5, x := 3/10, y := 0, scale := 1 },
   { time := 9, x := 7/10, y := 1, scale := 3 }]

/-- C7: for a clip with reframe keyframes, the emitted video chain is
trim, timestamp reset, scale-to-cover, then a fixed-size 1080x1920
crop whose x offset pans to the arithmetic mean of the keyframe x
positions with the vertical center fixed, followed by the
normalization and grading stages; the chain is unchanged by any
replacement of the keyframes that preserves the x positions, so the
scale (zoom) and y values encoded in keyframes are ignored. -/
theorem c7_reframe_average_pan (c : Clip) (kfs2 : List Keyframe)
    (h : c.reframeKeyframes ≠ [])
    (hx : kfs2.map Keyframe.x = c.reframeKeyframes.map Keyframe.x) :
    clipVideoStages c =
      [VFStage.trim c.sourceStart (clipDuration c), VFStage.setptsStart,
       VFStage.scaleCover,
       VFStage.crop 1080 1920
         (panCropXExpr (avgKeyframeX c.reframeKeyframes)) centerCropYExpr,
       VFStage.setsar1, VFStage.fps30, VFStage.formatYuv420p] ++ gradeStages c ∧
      avgKeyframeX c.reframeKeyframes =
        (c.reframeKeyframes.map Keyframe.x).sum / (c.reframeKeyframes.length : ℚ) ∧
      clipVideoStages { c with reframeKeyframes := kfs2 } = clipVideoStages c := by
  have hlen : 0 < c.reframeKeyframes.length := List.length_pos.mpr h
  have hlen2 : kfs2.length = c.reframeKeyframes.length := by
    have hcong := congrArg List.length hx
    simpa using hcong
  have havg : avgKeyframeX kfs2 = avgKeyframeX c.reframeKeyframes := by
    rw [avgKeyframeX, avgKeyframeX, hx, hlen2]
  refine ⟨?_, rfl, ?_⟩
  · simp [clipVideoStages, frameStages, hlen]
  · simp only [clipVideoStages, frameStages, clipDuration, gradeStages, havg, hlen,
      hlen2]

/-- C7, witness: keyframes with different scales and y positions but
the same x positions produce the identical filter chain. -/
theorem c7_reframe_average_pan_witness :
    sampleReframeClip.reframeKeyframes ≠ [] ∧
      clipVideoStages { sampleReframeClip with reframeKeyframes := sampleKfs2 } =
        clipVideoStages sampleReframeClip :=
  ⟨by simp [sampleReframeClip],
    (c7_reframe_average_pan sampleReframeClip sampleKfs2
      (by simp [sampleReframeClip]) rfl).2.2⟩

/-- C9: the crop x-offset emitted for a reframed clip is the clamped
expression `max(0, min(iw-1080, avgX*iw - 540))`; for every average x
value — also outside [0, 1] — its per-frame value lies in
[0, iw - 1080] whenever the scaled source is at least 1080 wide, so no
out-of-bounds crop offset reaches the encoder. -/
theorem c9_crop_offset_clamped (c : Clip) (avgX iw ihh : ℚ)
    (h : c.reframeKeyframes ≠ []) (hiw : 1080 ≤ iw) :
    VFStage.crop 1080 1920 (panCropXExpr (avgKeyframeX c.reframeKeyframes))
        centerCropYExpr ∈ clipVideoStages c ∧
      CropExpr.eval iw ihh (panCropXExpr avgX) =
        max 0 (min (iw - 1080) (avgX * iw - 540)) ∧
      0 ≤ CropExpr.eval iw ihh (panCropXExpr avgX) ∧
      CropExpr.eval iw ihh (panCropXExpr avgX) ≤ iw - 1080 := by
  have hlen : 0 < c.reframeKeyframes.length := List.length_pos.mpr h
  have heval : CropExpr.eval iw ihh (panCropXExpr avgX) =
      max 0 (min (iw - 1080) (avgX * iw - 540)) := by
    simp only [panCropXExpr, CropExpr.eval]
    norm_num
  refine ⟨?_, heval, ?_, ?_⟩
  · simp [clipVideoStages, frameStages, hlen]
  · rw [heval]; exact le_max_left _ _
  · rw [heval]
    exact max_le (by linarith) (min_le_left _ _)

/-- C9, witness: an average x of 3 (far outside [0, 1]) on a
2000-pixel-wide scaled source stays clamped inside [0, 920]. -/
theorem c9_crop_offset_clamped_witness :
    sampleReframeClip.reframeKeyframes ≠ [] ∧ (1080 : ℚ) ≤ 2000 ∧
      0 ≤ CropExpr.eval 2000 1920 (panCropXExpr 3) ∧
      CropExpr.eval 2000 1920 (panCropXExpr 3) ≤ 2000 - 1080 := by
  have h := c9_crop_offset_clamped sampleReframeClip 3 2000 1920 (by decide)
    (by norm_num)
  exact ⟨by decide, by norm_num, h.2.2.1, h.2.2.2⟩

/-! ## Middle-boundary transitions (C1, C2) -/

/-- A running chain of 5 seconds with no filters emitted yet. -/
def sampleChainState : ChainState :=
  { lastV := "v0", lastA := "a0", chainEnd := 5, filters := [] }

/-- C1: at a middle boundary whose resolved transition (preferring the
earlier clip's transitionEnd, else the next clip's transitionStart)
has positive duration `d` with `chainEnd - d ≥ 0`, the loop emits an
xfade at offset `chainEnd - d` together with an equal-duration
acrossfade, and the chain end becomes `chainEnd - d` plus the next
clip's trimmed duration. -/
theorem c1_middle_crossfade (i : Nat) (c nextClip : Clip) (ty : String) (d : ℚ)
    (s : ChainState) (rest : List Clip)
    (hres : resolveTransition c nextClip = (ty, d)) (hd : 0 < d)
    (hty : ty ≠ "none") (hoff : 0 ≤ s.chainEnd - d) :
    runMiddle i (c :: nextClip :: rest) s =
        runMiddle (i + 1) (nextClip :: rest) (middleStep i c nextClip s) ∧
      (middleStep i c nextClip s).chainEnd =
        s.chainEnd - d + clipDuration nextClip ∧
      (middleStep i c nextClip s).filters = s.filters ++
        [FilterEntry.xfade (xfadeMap ty) d (s.chainEnd - d)
          s.lastV (vLabel (i + 1)) (vmLabel (i + 1)),
         FilterEntry.acrossfade d s.lastA (aLabel (i + 1)) (amLabel (i + 1))] := by
  have hstep : middleStep i c nextClip s =
      { lastV := vmLabel (i + 1), lastA := amLabel (i + 1),
        chainEnd := s.chainEnd - d + clipDuration nextClip,
        filters := s.filters ++
          [FilterEntry.xfade (xfadeMap ty) d (s.chainEnd - d)
            s.lastV (vLabel (i + 1)) (vmLabel (i + 1)),
           FilterEntry.acrossfade d s.lastA (aLabel (i + 1)) (amLabel (i + 1))] } := by
    simp only [middleStep, hres]
    rw [if_pos ⟨hd, hty⟩, if_neg (not_lt.mpr hoff)]
  exact ⟨rfl, by rw [hstep], by rw [hstep]⟩

/-- C1, witness: two 5-second clips with a 2-second cross-dissolve
yield the xfade at offset 3 and a chain end of 8. -/
theorem c1_middle_crossfade_witness :
    resolveTransition sampleClipA sampleClipB = ("cross-dissolve", 2) ∧
      (0 : ℚ) ≤ 5 - 2 ∧
      (middleStep 0 sampleClipA sampleClipB sampleChainState).chainEnd = 8 ∧
      (middleStep 0 sampleClipA sampleClipB sampleChainState).filters =
        [FilterEntry.xfade "fade" 2 3 "v0" (vLabel 1) (vmLabel 1),
         FilterEntry.acrossfade 2 "a0" (aLabel 1) (amLabel 1)] := by
  have hres : resolveTransition sampleClipA sampleClipB = ("cross-dissolve", 2) := by
    norm_num [resolveTransition, sampleClipA, sampleClipB]
  have h := c1_middle_crossfade 0 sampleClipA sampleClipB "cross-dissolve" 2
    sampleChainState [] hres (by norm_num) (by simp) (by norm_num [sampleChainState])
  refine ⟨hres, by norm_num, ?_, ?_⟩
  · rw [h.2.1]
    norm_num [sampleChainState, clipDuration, sampleClipB]
  · rw [h.2.2]
    norm_num [sampleChainState, xfadeMap]

/-- No xfade entry in the list carries a negative offset. -/
def xfadeOffsetsOk (fs : List FilterEntry) : Prop :=
  ∀ k d off la lb lo, FilterEntry.xfade k d off la lb lo ∈ fs → 0 ≤ off

theorem xfadeOffsetsOk_nil : xfadeOffsetsOk [] := by
  intro k d off la lb lo hmem
  simp at hmem

theorem xfadeOffsetsOk_append {l1 l2 : List FilterEntry}
    (h1 : xfadeOffsetsOk l1) (h2 : xfadeOffsetsOk l2) :
    xfadeOffsetsOk (l1 ++ l2) := by
  intro k d off la lb lo hmem
  rcases List.mem_append.mp hmem with h | h
  · exact h1 k d off la lb lo h
  · exact h2 k d off la lb lo h

/-- Step-1 output contains no xfade entries at all. -/
theorem buildStep1_xfadeOk (tv : Option ℚ) (res : Clip → Option String) :
    ∀ (cs : List Clip) (i : Nat) (ins : List ResolvedInput)
      (fs : List FilterEntry),
      buildStep1 tv res i cs = Except.ok (ins, fs) → xfadeOffsetsOk fs := by
  intro cs
  induction cs with
  | nil =>
    intro i ins fs h
    rw [buildStep1] at h
    injection h with h
    rw [Prod.mk.injEq] at h
    exact h.2 ▸ xfadeOffsetsOk_nil
  | cons c rest ih =>
    intro i ins fs h
    rw [buildStep1] at h
    cases hres : res c with
    | none => rw [hres] at h; exact absurd h (by simp)
    | some p =>
      rw [hres] at h
      cases hrec : buildStep1 tv res (i + 1) rest with
      | error e => rw [hrec] at h; exact absurd h (by simp)
      | ok pr =>
        rw [hrec] at h
        obtain ⟨ins2, fs2⟩ := pr
        have hfs : fs = FilterEntry.clipVideo i (clipVideoStages c) ::
            clipAudioEntry i tv c (isImagePath p) :: fs2 := by
          injection h with h
          rw [Prod.mk.injEq] at h
          exact h.2.symm
        subst hfs
        intro k d off la lb lo hmem
        rcases List.mem_cons.mp hmem with hm | hmem2
        · exact absurd hm (by simp)
        rcases List.mem_cons.mp hmem2 with hm | hmem3
        · exfalso
          rw [clipAudioEntry] at hm
          split at hm <;> simp at hm
        · exact ih (i + 1) ins2 fs2 hrec k d off la lb lo hmem3

/-- No xfade entry sits among a concat pair. -/
theorem concatPair_xfadeOk (a1 b1 o1 a2 b2 o2 : String) :
    xfadeOffsetsOk
      [FilterEntry.concatV a1 b1 o1, FilterEntry.concatA a2 b2 o2] := by
  intro k d off la lb lo hmem
  rcases List.mem_cons.mp hmem with hm | hmem2
  · exact absurd hm (by simp)
  rcases List.mem_cons.mp hmem2 with hm | hmem3
  · exact absurd hm (by simp)
  · simp at hmem3

/-- The middle-boundary step never emits an xfade with negative offset. -/
theorem middleStep_xfadeOk (i : Nat) (c c2 : Clip) (s : ChainState)
    (h : xfadeOffsetsOk s.filters) :
    xfadeOffsetsOk (middleStep i c c2 s).filters := by
  rcases hres : resolveTransition c c2 with ⟨ty, d⟩
  by_cases hcond : 0 < d ∧ ty ≠ "none"
  · by_cases hoff : s.chainEnd - d < 0
    · have hstep : (middleStep i c c2 s).filters = s.filters ++
          [FilterEntry.concatV s.lastV (vLabel (i + 1)) (vmLabel (i + 1)),
           FilterEntry.concatA s.lastA (aLabel (i + 1)) (amLabel (i + 1))] := by
        simp only [middleStep, hres]
        rw [if_pos hcond, if_pos hoff]
      rw [hstep]
      exact xfadeOffsetsOk_append h (concatPair_xfadeOk _ _ _ _ _ _)
    · have hstep : (middleStep i c c2 s).filters = s.filters ++
          [FilterEntry.xfade (xfadeMap ty) d (s.chainEnd - d)
            s.lastV (vLabel (i + 1)) (vmLabel (i + 1)),
           FilterEntry.acrossfade d s.lastA (aLabel (i + 1)) (amLabel (i + 1))] := by
        simp only [middleStep, hres]
        rw [if_pos hcond, if_neg hoff]
      rw [hstep]
      refine xfadeOffsetsOk_append h ?_
      intro k d2 off la lb lo hmem
      rcases List.mem_cons.mp hmem with hm | hmem2
      · have hoffeq : off = s.chainEnd - d := by
          injection hm with e1 e2 e3 e4 e5 e6
        rw [hoffeq]
        exact not_lt.mp hoff
      rcases List.mem_cons.mp hmem2 with hm | hmem3
      · exact absurd hm (by simp)
      · simp at hmem3
  · have hstep : (middleStep i c c2 s).filters = s.filters ++
        [FilterEntry.concatV s.lastV (vLabel (i + 1)) (vmLabel (i + 1)),
         FilterEntry.concatA s.lastA (aLabel (i + 1)) (amLabel (i + 1))] := by
      simp only [middleStep, hres]
      rw [if_neg hcond]
    rw [hstep]
    exact xfadeOffsetsOk_append h (concatPair_xfadeOk _ _ _ _ _ _)

/-- The middle-boundary fold preserves the xfade-offset invariant. -/
theorem runMiddle_xfadeOk :
    ∀ (clips : List Clip) (i : Nat) (s : ChainState),
      xfadeOffsetsOk s.filters → xfadeOffsetsOk (runMiddle i clips s).filters := by
  intro clips
  induction clips with
  | nil => intro i s h; exact h
  | cons c rest ih =>
    intro i s h
    cases rest with
    | nil => exact h
    | cons c2 rest2 =>
      rw [runMiddle]
      exact ih (i + 1) (middleStep i c c2 s) (middleStep_xfadeOk i c c2 s h)

/-- The start fade-in preserves the xfade-offset invariant. -/
theorem applyStartTransition_xfadeOk (c0 : Clip) (s : ChainState)
    (h : xfadeOffsetsOk s.filters) :
    xfadeOffsetsOk (applyStartTransition c0 s).filters := by
  cases hts : c0.transitionStart with
  | none =>
    have he : applyStartTransition c0 s = s := by
      simp only [applyStartTransition, hts]
    rw [he]; exact h
  | some t =>
    by_cases hd : 0 < t.duration
    · have he : (applyStartTransition c0 s).filters = s.filters ++
          [FilterEntry.fadeIn s.lastV t.duration
            (if t.ttype = "dip-to-white" then "white" else "black") "v0_faded",
           FilterEntry.afadeIn s.lastA t.duration "a0_faded"] := by
        simp only [applyStartTransition, hts]
        rw [if_pos hd]
      rw [he]
      refine xfadeOffsetsOk_append h ?_
      intro k d off la lb lo hmem
      rcases List.mem_cons.mp hmem with hm | hmem2
      · exact absurd hm (by simp)
      rcases List.mem_cons.mp hmem2 with hm | hmem3
      · exact absurd hm (by simp)
      · simp at hmem3
    · have he : applyStartTransition c0 s = s := by
        simp only [applyStartTransition, hts]
        rw [if_neg hd]
      rw [he]; exact h

/-- The end fade-out preserves the xfade-offset invariant. -/
theorem applyEndTransition_xfadeOk (cl : Clip) (s : ChainState)
    (h : xfadeOffsetsOk s.filters) :
    xfadeOffsetsOk (applyEndTransition cl s).filters := by
  cases hts : cl.transitionEnd with
  | none =>
    have he : applyEndTransition cl s = s := by
      simp only [applyEndTransition, hts]
    rw [he]; exact h
  | some t =>
    by_cases hd : 0 < t.duration
    · by_cases hfs : 0 < s.chainEnd - t.duration
      · have he : (applyEndTransition cl s).filters = s.filters ++
            [FilterEntry.fadeOut s.lastV (s.chainEnd - t.duration) t.duration
              (if t.ttype = "dip-to-white" then "white" else "black") "v_final_faded",
             FilterEntry.afadeOut s.lastA (s.chainEnd - t.duration) t.duration
              "a_final_faded"] := by
          simp only [applyEndTransition, hts]
          rw [if_pos hd, if_pos hfs]
        rw [he]
        refine xfadeOffsetsOk_append h ?_
        intro k d off la lb lo hmem
        rcases List.mem_cons.mp hmem with hm | hmem2
        · exact absurd hm (by simp)
        rcases List.mem_cons.mp hmem2 with hm | hmem3
        · exact absurd hm (by simp)
        · simp at hmem3
      · have he : applyEndTransition cl s = s := by
          simp only [applyEndTransition, hts]
          rw [if_pos hd, if_neg hfs]
        rw [he]; exact h
    · have he : applyEndTransition cl s = s := by
        simp only [applyEndTransition, hts]
        rw [if_neg hd]
      rw [he]; exact h

/-- Music chains contain no xfade entries. -/
theorem buildMusic_xfadeOk (resM : Clip → Option String) :
    ∀ (pairs : List (Option ℚ × Clip)) (idx : Nat),
      xfadeOffsetsOk (buildMusic resM idx pairs).2.1 := by
  intro pairs
  induction pairs with
  | nil =>
    intro idx
    exact xfadeOffsetsOk_nil
  | cons pr rest ih =>
    intro idx
    obtain ⟨tv, c⟩ := pr
    rw [buildMusic]
    cases resM c with
    | none => exact ih idx
    | some p =>
      refine xfadeOffsetsOk_append ?_ (ih (idx + 1))
      intro k d off la lb lo hmem
      rw [musicEntries] at hmem
      rcases List.mem_cons.mp hmem with hm | hmem2
      · exact absurd hm (by simp)
      rcases List.mem_cons.mp hmem2 with hm | hmem3
      · exact absurd hm (by simp)
      rcases List.mem_cons.mp hmem3 with hm | hmem4
      · exact absurd hm (by simp)
      rcases List.mem_cons.mp hmem4 with hm | hmem5
      · exact absurd hm (by simp)
      · simp at hmem5

/-- The mix entry is never an xfade. -/
theorem mixEntry_xfadeOk (labels : List String) :
    xfadeOffsetsOk [mixEntry labels] := by
  intro k d off la lb lo hmem
  rw [List.mem_singleton] at hmem
  exfalso
  rw [mixEntry] at hmem
  split at hmem <;> simp at hmem

/-- The final null/aresample taps are never xfades. -/
theorem finalTaps_xfadeOk (a1 o1 a2 o2 : String) :
    xfadeOffsetsOk
      [FilterEntry.nullPass a1 o1, FilterEntry.aresampleFinal a2 o2] := by
  intro k d off la lb lo hmem
  rcases List.mem_cons.mp hmem with hm | hmem2
  · exact absurd hm (by simp)
  rcases List.mem_cons.mp hmem2 with hm | hmem3
  · exact absurd hm (by simp)
  · simp at hmem3

/-- A successful export core build satisfies the xfade invariant. -/
theorem buildExportCore_xfadeOk (t : Timeline) (uf fmt : Option String)
    (res resM : Clip → Option String) (core : ExportCore)
    (h : buildExportCore t uf fmt res resM = Except.ok core) :
    xfadeOffsetsOk core.filterComplex := by
  unfold buildExportCore at h
  rcases hvt : t.videoTracks with _ | ⟨track, _ | ⟨track2, rest2⟩⟩
  · simp [hvt] at h
  · rw [hvt] at h
    dsimp only at h
    by_cases hlay : t.template.layout = "solo"
    · rw [if_pos hlay] at h
      rcases hclips : track.clips with _ | ⟨c0, restClips⟩
      · simp [hclips] at h
      · rw [hclips] at h
        dsimp only at h
        cases hs : buildStep1 track.volume res 0 (c0 :: restClips) with
        | error e2 => simp [hs] at h
        | ok pr =>
          obtain ⟨inputData, fc1⟩ := pr
          rw [hs] at h
          injection h with h
          subst h
          have hfc1 : xfadeOffsetsOk fc1 :=
            buildStep1_xfadeOk _ res (c0 :: restClips) 0 inputData fc1 hs
          have hs3 : xfadeOffsetsOk (chainState3 c0 restClips fc1).filters := by
            unfold chainState3
            exact applyEndTransition_xfadeOk _ _
              (runMiddle_xfadeOk (c0 :: restClips) 0 _
                (applyStartTransition_xfadeOk c0 _ hfc1))
          simp only [assembleCore]
          intro k d off la lb lo hmem
          simp only [List.mem_append, or_assoc] at hmem
          rcases hmem with hm | hm | hm | hm
          · exact hs3 k d off la lb lo hm
          · exact finalTaps_xfadeOk (chainState3 c0 restClips fc1).lastV "v_final"
              (chainState3 c0 restClips fc1).lastA "a_final" k d off la lb lo hm
          · exact buildMusic_xfadeOk resM _ _ k d off la lb lo hm
          · exact mixEntry_xfadeOk _ k d off la lb lo hm
    · rw [if_neg hlay] at h
      exact absurd h (by simp)
  · simp [hvt] at h

/-- A 1-second clip requesting a 2-second cross-dissolve. -/
def sampleShortA : Clip :=
  { mediaFileId := "s1", sourceStart := 0, sourceEnd := 1,
    transitionEnd := some { ttype := "cross-dissolve", duration := 2 } }

/-- Another 1-second clip. -/
def sampleShortB : Clip :=
  { mediaFileId := "s2", sourceStart := 0, sourceEnd := 1 }

/-- The chain state at the boundary of the two short clips. -/
def sampleShortState : ChainState :=
  { lastV := "v0", lastA := "a0", chainEnd := 1, filters := [] }

/-- C2: when the resolved transition duration exceeds the current
chain end (offset would be negative), the loop falls back to hard
concatenation of the accumulated streams with the next clip's streams
and advances the chain end by exactly the next clip's trimmed
duration; moreover, no successful export build ever places an xfade
with negative offset into the filter graph handed to the encoder. -/
theorem c2_negative_offset_fallback (i : Nat) (c nextClip : Clip) (ty : String)
    (d : ℚ) (s : ChainState)
    (hres : resolveTransition c nextClip = (ty, d)) (hd : 0 < d)
    (hty : ty ≠ "none") (hoff : s.chainEnd - d < 0) :
    (middleStep i c nextClip s).chainEnd = s.chainEnd + clipDuration nextClip ∧
      (middleStep i c nextClip s).filters = s.filters ++
        [FilterEntry.concatV s.lastV (vLabel (i + 1)) (vmLabel (i + 1)),
         FilterEntry.concatA s.lastA (aLabel (i + 1)) (amLabel (i + 1))] ∧
      ∀ (t : Timeline) (uf fmt : Option String)
        (res resM : Clip → Option String) (now : Nat) (e : ExportOk),
        buildExport t uf fmt res resM now = Except.ok e →
        xfadeOffsetsOk e.filterComplex := by
  have hstep : middleStep i c nextClip s =
      { s with
        filters := s.filters ++
          [FilterEntry.concatV s.lastV (vLabel (i + 1)) (vmLabel (i + 1)),
           FilterEntry.concatA s.lastA (aLabel (i + 1)) (amLabel (i + 1))],
        chainEnd := s.chainEnd + clipDuration nextClip } := by
    simp only [middleStep, hres]
    rw [if_pos ⟨hd, hty⟩, if_pos hoff]
  refine ⟨by rw [hstep], by rw [hstep], ?_⟩
  intro t uf fmt res resM now e hbe
  unfold buildExport at hbe
  cases hc : buildExportCore t uf fmt res resM with
  | error msg => rw [hc] at hbe; exact absurd hbe (by simp [Except.map])
  | ok core =>
    rw [hc] at hbe
    have hfc : e.filterComplex = core.filterComplex := by
      simp only [Except.map] at hbe
      injection hbe with hbe
      rw [← hbe]
    rw [hfc]
    exact buildExportCore_xfadeOk t uf fmt res resM core hc

/-- C2, witness: two 1-second clips with a 2-second cross-dissolve
fall back to concatenation and the chain end advances to 2. -/
theorem c2_negative_offset_fallback_witness :
    resolveTransition sampleShortA sampleShortB = ("cross-dissolve", 2) ∧
      sampleShortState.chainEnd - 2 < 0 ∧
      (middleStep 0 sampleShortA sampleShortB sampleShortState).chainEnd = 2 ∧
      (middleStep 0 sampleShortA sampleShortB sampleShortState).filters =
        [FilterEntry.concatV "v0" (vLabel 1) (vmLabel 1),
         FilterEntry.concatA "a0" (aLabel 1) (amLabel 1)] := by
  have hres : resolveTransition sampleShortA sampleShortB = ("cross-dissolve", 2) := by
    norm_num [resolveTransition, sampleShortA, sampleShortB]
  have h := c2_negative_offset_fallback 0 sampleShortA sampleShortB
    "cross-dissolve" 2 sampleShortState hres (by norm_num) (by simp)
    (by norm_num [sampleShortState])
  refine ⟨hres, by norm_num [sampleShortState], ?_, ?_⟩
  · rw [h.1]
    norm_num [sampleShortState, clipDuration, sampleShortB]
  · rw [h.2.1]
    norm_num [sampleShortState]

/-! ## Audio mix stage (C5) and determinism (C8) -/

/-- C5, counterexample: on a timeline with one resolved secondary
music clip, the emitted mixer is `amix=...:duration=first:...` — it
truncates to the first input's (the master stream's) duration, not to
the shortest input's. -/
theorem c5_amix_counterexample :
    (buildExport sampleTimeline none none sampleResolve sampleResolveMusic 0).map
        (fun e => e.filterComplex.getLast?) =
      Except.ok (some (FilterEntry.amix ["a_final", "a1_out"] 2 "first" 2 "a_mixed")) ∧
      ("first" : String) ≠ "shortest" := by
  constructor
  · rfl
  · decide

/-- C5, amended: with at least one resolved secondary audio clip the
final filter is an amplitude mixer over the master stream followed by
the secondary streams with `duration=first` (truncating to the master
input's duration) and `dropout_transition=2`; with no secondary input
the final filter is the `anull` passthrough of the master stream. -/
theorem c5_amix_first_duration (t : Timeline) (uf fmt : Option String)
    (res resM : Clip → Option String) (now : Nat) (e : ExportOk)
    (hbe : buildExport t uf fmt res resM now = Except.ok e) :
    e.audioInputLabels.head? = some "a_final" ∧
      (1 < e.audioInputLabels.length →
        e.filterComplex.getLast? = some (FilterEntry.amix e.audioInputLabels
          e.audioInputLabels.length "first" 2 "a_mixed")) ∧
      (e.audioInputLabels.length ≤ 1 →
        e.filterComplex.getLast? = some (FilterEntry.anullPass "a_final" "a_mixed")) := by
  unfold buildExport at hbe
  cases hc : buildExportCore t uf fmt res resM with
  | error msg => rw [hc] at hbe; exact absurd hbe (by simp [Except.map])
  | ok core =>
    rw [hc] at hbe
    simp only [Except.map] at hbe
    injection hbe with hbe
    subst hbe
    unfold buildExportCore at hc
    rcases hvt : t.videoTracks with _ | ⟨track, _ | ⟨track2, rest2⟩⟩
    · simp [hvt] at hc
    · rw [hvt] at hc
      dsimp only at hc
      by_cases hlay : t.template.layout = "solo"
      · rw [if_pos hlay] at hc
        rcases hclips : track.clips with _ | ⟨c0, restClips⟩
        · simp [hclips] at hc
        · rw [hclips] at hc
          dsimp only at hc
          cases hs : buildStep1 track.volume res 0 (c0 :: restClips) with
          | error e2 => simp [hs] at hc
          | ok pr =>
            obtain ⟨inputData, fc1⟩ := pr
            rw [hs] at hc
            injection hc with hc
            subst hc
            simp only [assembleCore]
            have hlast : ∀ (l1 l2 l3 : List FilterEntry) (x : FilterEntry),
                (l1 ++ (l2 ++ (l3 ++ [x]))).getLast? = some x := by
              intro l1 l2 l3 x
              rw [List.getLast?_append_of_ne_nil _ (by simp),
                List.getLast?_append_of_ne_nil _ (by simp),
                List.getLast?_append_of_ne_nil _ (by simp)]
              rfl
            refine ⟨rfl, ?_, ?_⟩
            · intro hlen
              simp only [List.append_assoc]
              rw [hlast, mixEntry, if_pos hlen]
            · intro hlen
              simp only [List.append_assoc]
              rw [hlast, mixEntry, if_neg (not_lt.mpr hlen)]
      · rw [if_neg hlay] at hc
        exact absurd hc (by simp)
    · simp [hvt] at hc

/-- Default export record used to name the sample build result. -/
def defaultExportOk : ExportOk :=
  { exportId := "", outputFilename := "", inputData := [], musicPaths := [],
    audioInputLabels := [], filterComplex := [] }

/-- The concrete result of building the sample timeline. -/
def sampleExportOk : ExportOk :=
  (buildExport sampleTimeline none none sampleResolve
    sampleResolveMusic 0).toOption.getD defaultExportOk

/-- C5, witness: the sample build has two audio inputs and ends in the
`duration=first` mixer. -/
theorem c5_amix_first_duration_witness :
    buildExport sampleTimeline none none sampleResolve sampleResolveMusic 0 =
        Except.ok sampleExportOk ∧
      1 < sampleExportOk.audioInputLabels.length ∧
      sampleExportOk.filterComplex.getLast? =
        some (FilterEntry.amix sampleExportOk.audioInputLabels
          sampleExportOk.audioInputLabels.length "first" 2 "a_mixed") := by
  have hbe : buildExport sampleTimeline none none sampleResolve
      sampleResolveMusic 0 = Except.ok sampleExportOk := rfl
  have hlen : 1 < sampleExportOk.audioInputLabels.length := by decide
  exact ⟨hbe, hlen,
    (c5_amix_first_duration sampleTimeline none none sampleResolve
      sampleResolveMusic 0 sampleExportOk hbe).2.1 hlen⟩

/-- C8: the filter graph, resolved inputs, music paths and output
filename produced for a timeline do not depend on the wall clock
(which feeds only the generated export id): compiling the same
timeline with the same resolvers is a deterministic function of that
input. -/
theorem c8_deterministic_graph (t : Timeline) (uf fmt : Option String)
    (res resM : Clip → Option String) (n1 n2 : Nat) :
    (buildExport t uf fmt res resM n1).map ExportOk.filterComplex =
        (buildExport t uf fmt res resM n2).map ExportOk.filterComplex ∧
      (buildExport t uf fmt res resM n1).map ExportOk.inputData =
        (buildExport t uf fmt res resM n2).map ExportOk.inputData ∧
      (buildExport t uf fmt res resM n1).map ExportOk.musicPaths =
        (buildExport t uf fmt res resM n2).map ExportOk.musicPaths ∧
      (buildExport t uf fmt res resM n1).map ExportOk.outputFilename =
        (buildExport t uf fmt res resM n2).map ExportOk.outputFilename := by
  unfold buildExport
  cases buildExportCore t uf fmt res resM <;> simp [Except.map]

end VideoEditor
